import Mathlib

/-! ntpm.c: a TCP relay in front of a TPM2 driver.

A shallow embedding of `main` of `src/ntpm.c`: the per-connection session loop
(recv, `drv_process`, length prefix, send loop), the shutdown of the client
socket, the cleanup block (GetCapability followed by FlushContext commands)
and the surrounding accept loop.

Conventions.
* A byte (`uint8_t`) is a `Fin 256`.
* An `int` is an `Int`; results of `int` arithmetic go through `toInt32`.
* An array is a total map from offsets to bytes (`Mem`).  Offsets outside the
  declared bounds of the array stand for whatever memory lies next to it; the
  program does not determine those bytes, so they are left arbitrary.
* The socket layer and the TPM driver are external: they are parameters
  (`Net`, `TpmDriver`), each a deterministic machine over its own state.
* Loops that need not terminate (`do ... while`, the send loop) take fuel and
  return `none` when it runs out.
-/

namespace Ntpm

/-! ## Bytes, integers, memory -/

abbrev Byte := Fin 256

/-- Contents of a byte array, by offset from its first element. -/
abbrev Mem := Int → Byte

/-- `#define SOCKET_ERROR -1`. -/
def SOCKET_ERROR : Int := -1

/-- Conversion of an integer value to `int` (32 bits, two's complement). -/
def toInt32 (x : Int) : Int := (x + 2 ^ 31) % 2 ^ 32 - 2 ^ 31

/-- Conversion of an integer value to `size_t` (64 bits). -/
def toSizeT (x : Int) : Nat := (x % 2 ^ 64).toNat

/-- The cast `(uint8_t)(x)`. -/
def toUInt8 (x : Int) : Byte := Fin.ofNat (x % 256).toNat

/-- The pointer `p + off`: the same memory seen from `off` elements further. -/
def shift (m : Mem) (off : Int) : Mem := fun j => m (off + j)

/-- The assignment `m[a] = b`. -/
def store (m : Mem) (a : Int) (b : Byte) : Mem := fun j => if j = a then b else m j

/-- The `n` bytes found at `m + off`. -/
def slice (m : Mem) (off : Int) (n : Nat) : List Byte :=
  (List.range n).map (fun (j : Nat) => m (off + (j : Int)))

/-- The call `memcpy(dst + d, src + s, n)`, returning the new contents of `dst`. -/
def memcpy (dst : Mem) (d : Int) (src : Mem) (s : Int) (n : Nat) : Mem :=
  fun j => if d ≤ j ∧ j < d + n then src (s + (j - d)) else dst j

/-- The contents of `dst` after the bytes `bs` have been written at `dst + d`. -/
def writeBytes (dst : Mem) (d : Int) (bs : List Byte) : Mem :=
  fun j => if d ≤ j ∧ j < d + bs.length then bs.getD (j - d).toNat 0 else dst j

/-- An array initialiser `{b0, b1, ...}` as memory (bytes past the end are not
determined by the program; they read as zero here and are never used). -/
def ofList (bs : List Byte) : Mem := fun j => if 0 ≤ j then bs.getD j.toNat 0 else 0

/-! ## The environment: sockets and the TPM driver -/

/-- What `recv` did: it failed, or it delivered some bytes (possibly none). -/
inductive RecvResult where
  | error
  | data (bytes : List Byte)
deriving DecidableEq, Repr

/-- The value returned by `recv`. -/
def RecvResult.len : RecvResult → Int
  | .error => SOCKET_ERROR
  | .data bytes => bytes.length

/-- The socket layer, a machine over states `σ`.
* `accept s` : new state and whether `accept` succeeded;
* `recv s cap` : new state and the outcome of a `recv` into `cap` bytes;
* `send s p n` : new state and the value returned by `send(fd, p, n, 0)`. -/
structure Net (σ : Type) where
  accept : σ → σ × Bool
  recv : σ → Nat → σ × RecvResult
  send : σ → Mem → Nat → σ × Int

/-- The selected entry of `drivers[]`: `drv_process(message, message_size)`
may rewrite the memory at `message` and returns a `size_t`. -/
structure TpmDriver (δ : Type) where
  drv_process : δ → Mem → Nat → δ × Mem × Nat

/-- Calls made to the outside, in program order. -/
inductive Event where
  | accept (ok : Bool)
  | recv (len : Int)
  | process (message : List Byte)
  | send (offset : Int) (size : Nat) (count : Int)
  | shutdownClient
  | shutdownListener
deriving DecidableEq, Repr

/-! ## The session loop (`do { ... } while (len > 0)`) -/

/-- The variables of `main` that live across loop iterations: the two
external states, the scratch `buffer[4096 + 4]` and the array `handles[128]`
of the cleanup block. -/
structure St (σ δ : Type) where
  sock : σ
  drv : δ
  buffer : Mem
  handles : Mem

/-- The loop `while (written != len) { count = send(...); ...; written += count; }`.
Returns the socket state, the final value of `written` and the `send` calls made.
A `count` equal to `SOCKET_ERROR` is only reported on `stderr`; it is added to
`written` like any other value. -/
def sendLoop {σ : Type} (net : Net σ) (buffer : Mem) (len : Int) :
    Nat → σ → Int → Option (σ × Int × List Event)
  | 0, s, written => if written ≠ len then none else some (s, written, [])
  | fuel + 1, s, written =>
    if written ≠ len then
      let size := toSizeT (toInt32 (len - written))
      let r := net.send s (shift buffer written) size
      let count := toInt32 r.2
      match sendLoop net buffer len fuel r.1 (toInt32 (written + count)) with
      | none => none
      | some (s2, w, evs) => some (s2, w, Event.send written size count :: evs)
    else some (s, written, [])

/-- The four stores of the length prefix, after the test `if (i & 0xF)` on
`uint32_t i = 1`. -/
def putLength (buffer : Mem) (len : Int) : Mem :=
  let i : Nat := 1
  if i &&& 0xF ≠ 0 then
    /- big-endian -/
    let b0 := store buffer 0 (toUInt8 (len >>> (24 : Nat)))
    let b1 := store b0 1 (toUInt8 (len >>> (16 : Nat)))
    let b2 := store b1 2 (toUInt8 (len >>> (8 : Nat)))
    store b2 3 (toUInt8 len)
  else
    /- little-endian -/
    let b3 := store buffer 3 (toUInt8 (len >>> (24 : Nat)))
    let b2 := store b3 2 (toUInt8 (len >>> (16 : Nat)))
    let b1 := store b2 1 (toUInt8 (len >>> (8 : Nat)))
    store b1 0 (toUInt8 len)

/-- Lines 136-155: `len = drv_process(buffer + 4, len)`, the length prefix and
`len += 4`.  Returns the driver state, the buffer, the new `len` and the
message that was passed to the driver. -/
def respond {δ : Type} (drv : TpmDriver δ) (d : δ) (buffer : Mem) (len : Int) :
    δ × Mem × Int × List Byte :=
  let message := slice buffer 4 (toSizeT len)
  let p := drv.drv_process d (shift buffer 4) (toSizeT len)
  let buffer1 := shift p.2.1 (-4)
  let len1 := toInt32 p.2.2
  let buffer2 := putLength buffer1 len1
  let len2 := toInt32 (len1 + 4)
  (p.1, buffer2, len2, message)

/-- How the body of the `do ... while` was left: by `break`, or by reaching
the loop test (at the end of the body or through `continue`). -/
inductive Flow where
  | brk
  | test
deriving DecidableEq, Repr

/-- One pass through the body of the `do ... while (len > 0)` loop.  Returns how
the body was left, the value of `len` at that point, the state and the calls
made; `none` when the send loop did not finish within `fuel` sends. -/
def sessionBody {σ δ : Type} (net : Net σ) (drv : TpmDriver δ) (fuel : Nat)
    (st : St σ δ) : Option (Flow × Int × St σ δ × List Event) :=
  let written : Int := 0
  let r := net.recv st.sock 4096
  let buffer1 :=
    match r.2 with
    | .error => st.buffer
    | .data bytes => writeBytes st.buffer 4 bytes
  let len := toInt32 r.2.len
  if len = SOCKET_ERROR then
    some (Flow.brk, len, { st with sock := r.1, buffer := buffer1 }, [Event.recv len])
  else if len = 0 then
    /- continue -/
    some (Flow.test, len, { st with sock := r.1, buffer := buffer1 }, [Event.recv len])
  else
    let q := respond drv st.drv buffer1 len
    match sendLoop net q.2.1 q.2.2.1 fuel r.1 written with
    | none => none
    | some (s2, _, evs) =>
      some (Flow.test, q.2.2.1, { st with sock := s2, drv := q.1, buffer := q.2.1 },
        Event.recv len :: Event.process q.2.2.2 :: evs)

/-- The loop `do { ... } while (len > 0);` of one connection.  Returns the
state on leaving the loop and the calls made; `none` when `fuel` is used up. -/
def sessionLoop {σ δ : Type} (net : Net σ) (drv : TpmDriver δ) :
    Nat → St σ δ → Option (St σ δ × List Event)
  | 0, _ => none
  | fuel + 1, st =>
    match sessionBody net drv fuel st with
    | none => none
    | some (Flow.brk, _, st1, evs) => some (st1, evs)
    | some (Flow.test, len, st1, evs) =>
      if len > 0 then
        match sessionLoop net drv fuel st1 with
        | none => none
        | some (st2, evs2) => some (st2, evs ++ evs2)
      else some (st1, evs)

/-! ## The cleanup block -/

/-- Initialiser of `cmdGetCap[]`. -/
def cmdGetCap : List Byte :=
  [0x80, 0x01,              /- TPM_ST_NO_SESSIONS -/
   0x00, 0x00, 0x00, 0x16,  /- commandSize -/
   0x00, 0x00, 0x01, 0x7A,  /- TPM_CC_GetCapability -/
   0x00, 0x00, 0x00, 0x01,  /- TPM_CAP_HANDLES -/
   0x80, 0x00, 0x00, 0x00,  /- TRANSIENT_FIRST -/
   0x00, 0x00, 0x00, 0x10]  /- propertyCount: 16 -/

/-- Initialiser of `cmdFlushContext[]`. -/
def cmdFlushContext : List Byte :=
  [0x80, 0x01,              /- TPM_ST_NO_SESSIONS -/
   0x00, 0x00, 0x00, 0x0E,  /- commandSize -/
   0x00, 0x00, 0x01, 0x65,  /- TPM_CC_FlushContext -/
   0x00, 0x00, 0x00, 0x00]  /- TPMI_DH_CONTEXT -/

/-- The locals of the cleanup block that the loops update. -/
structure Locals (δ : Type) where
  drv : δ
  buffer : Mem
  handles : Mem
  cmdGetCap : Mem
  i : Int

/-- The loop `while (handleCount--) { ... }`, for a `handleCount` that is not
negative: one pass per unit of `handleCount`. -/
def flushLoop {δ : Type} (drv : TpmDriver δ) : Nat → Locals δ → Locals δ × List Event
  | 0, loc => (loc, [])
  | handleCount + 1, loc =>
    let buffer1 := memcpy loc.buffer 0 (ofList cmdFlushContext) 0 cmdFlushContext.length
    let buffer2 := memcpy buffer1 (10 + loc.i) loc.handles loc.i 4
    let i1 := toInt32 (loc.i + 4)
    let p := drv.drv_process loc.drv buffer2 cmdFlushContext.length
    let rest := flushLoop drv handleCount
      { loc with drv := p.1, buffer := p.2.1, i := i1 }
    (rest.1, Event.process (slice buffer2 0 cmdFlushContext.length) :: rest.2)

/-- The body of `for (mode = 0; mode < 1; mode++)` for one value of `mode`. -/
def cleanupMode {δ : Type} (drv : TpmDriver δ) (loc : Locals δ) (mode : Nat) :
    Locals δ × List Event :=
  let cmd :=
    match mode with
    | 1 => store loc.cmdGetCap 14 0x02   /- LOADED_SESSION_FIRST -/
    | 2 => store loc.cmdGetCap 14 0x03   /- ACTIVE_SESSION_FIRST -/
    | _ => loc.cmdGetCap                 /- TRANSIENT_FIRST -/
  let buffer1 := memcpy loc.buffer 0 cmd 0 cmdGetCap.length
  let p := drv.drv_process loc.drv buffer1 cmdGetCap.length
  let buffer2 := p.2.1
  let handles1 := memcpy loc.handles 0 buffer2 19 128
  let handleCount : Nat := (buffer2 18).val
  let rest := flushLoop drv handleCount
    { loc with drv := p.1, buffer := buffer2, handles := handles1, cmdGetCap := cmd }
  (rest.1, Event.process (slice buffer1 0 cmdGetCap.length) :: rest.2)

/-- The loop `for (mode = 0; mode < 1; mode++)` over a list of values of `mode`. -/
def cleanupModes {δ : Type} (drv : TpmDriver δ) : List Nat → Locals δ → Locals δ × List Event
  | [], loc => (loc, [])
  | mode :: modes, loc =>
    let r := cleanupMode drv loc mode
    let rest := cleanupModes drv modes r.1
    (rest.1, r.2 ++ rest.2)

/-- The cleanup block (lines 168-220), entered with `i = 0`. -/
def cleanup {σ δ : Type} (drv : TpmDriver δ) (st : St σ δ) : St σ δ × List Event :=
  let loc : Locals δ :=
    { drv := st.drv, buffer := st.buffer, handles := st.handles,
      cmdGetCap := ofList cmdGetCap, i := 0 }
  let r := cleanupModes drv (List.range 1) loc
  ({ st with drv := r.1.drv, buffer := r.1.buffer, handles := r.1.handles }, r.2)

/-! ## One connection and the accept loop -/

/-- What follows a successful `accept`: the session loop,
`shutdown(newsockfd, SHUT_RDWR)` and the cleanup block. -/
def serve {σ δ : Type} (net : Net σ) (drv : TpmDriver δ) (fuel : Nat) (st : St σ δ) :
    Option (St σ δ × List Event) :=
  match sessionLoop net drv fuel st with
  | none => none
  | some (st1, evs) =>
    let c := cleanup drv st1
    some (c.1, evs ++ Event.shutdownClient :: c.2)

/-- Where `main` stands after some passes of `while (true)`: it has returned
with a code, or it is about to call `accept` again. -/
inductive Outcome where
  | returned (code : Int)
  | accepting
deriving DecidableEq, Repr

/-- The loop `while (true)` of `main`, for at most `n` connections.  Each
session gets `fuel`; `none` when a session uses it up. -/
def acceptLoop {σ δ : Type} (net : Net σ) (drv : TpmDriver δ) (fuel : Nat) :
    Nat → St σ δ → Option (List Event × Outcome)
  | 0, _ => some ([], Outcome.accepting)
  | n + 1, st =>
    let a := net.accept st.sock
    if a.2 = false then
      some ([Event.accept false, Event.shutdownListener], Outcome.returned (-1))
    else
      match serve net drv fuel { st with sock := a.1 } with
      | none => none
      | some (st1, evs) =>
        match acceptLoop net drv fuel n st1 with
        | none => none
        | some (evs2, out) => some (Event.accept true :: (evs ++ evs2), out)

/-! ## Vocabulary for statements about the send loop -/

/-- The bytes a `send` call was offered: `size` bytes at `buffer + offset`. -/
def Event.offered (buffer : Mem) : Event → List Byte
  | Event.send offset size _ => slice buffer offset size
  | _ => []

/-- The bytes a `send` call took: the first `count` of those it was offered. -/
def Event.taken (buffer : Mem) : Event → List Byte
  | Event.send offset _ count => slice buffer offset count.toNat
  | _ => []

/-- The calls `evs` are successive partial writes of the frame
`buffer[0 .. len)` starting with `written = w`: each call is made at offset
`written` with the `len - written` bytes still outstanding, which are the
frame without its first `written` bytes; it takes between 1 and that many
bytes (so `written` grows strictly); after the last call `written = len`. -/
def SendChain (buffer : Mem) (len : Int) : Int → List Event → Prop
  | w, [] => w = len
  | w, Event.send offset size count :: evs =>
    offset = w ∧ (size : Int) = len - w
      ∧ Event.offered buffer (Event.send offset size count)
          = (slice buffer 0 len.toNat).drop w.toNat
      ∧ 1 ≤ count ∧ w < w + count ∧ w + count ≤ len
      ∧ SendChain buffer len (w + count) evs
  | _, _ :: _ => False

/-- The calls `evs` are the calls the loop really made to `net.send`, starting
in socket state `s`: each call is `net.send` applied, in the state the
previous call left, to the pointer `buffer + offset` and to `size`; its `count`
is the value `net.send` returned there; `s1` is the state left by the last
call. -/
def SendCalls {σ : Type} (net : Net σ) (buffer : Mem) : σ → List Event → σ → Prop
  | s, [], s1 => s1 = s
  | s, Event.send offset size count :: evs, s1 =>
    count = (net.send s (shift buffer offset) size).2
      ∧ SendCalls net buffer (net.send s (shift buffer offset) size).1 evs s1
  | _, _ :: _, _ => False

/-! ## Vocabulary for statements about the cleanup block -/

/-- The buffer as the driver leaves it after the GetCapability call of the
cleanup block entered in state `st`. -/
def capResponse {σ δ : Type} (drv : TpmDriver δ) (st : St σ δ) : Mem :=
  (drv.drv_process st.drv (memcpy st.buffer 0 (ofList cmdGetCap) 0 cmdGetCap.length)
    cmdGetCap.length).2.1

/-- Is this call a driver call with a 14-byte message that starts with the
header of the FlushContext template (tag, commandSize 14, TPM_CC_FlushContext)? -/
def Event.isFlush : Event → Bool
  | Event.process message =>
    message.length == 14
      && message.take 10 == [0x80, 0x01, 0x00, 0x00, 0x00, 0x0E, 0x00, 0x00, 0x01, 0x65]
  | _ => false

/-- The calls `evs` are calls really made to the driver, starting in driver
state `d`: each is `drv.drv_process` applied, in the state the previous call
left, to a memory `m` whose first bytes are the message of the call and to
the length of that message; `d1` and `b1` are the driver state and the memory
left by the last call (`d` and `b` when there is no call). -/
def DriverRun {δ : Type} (drv : TpmDriver δ) : δ → Mem → List Event → δ → Mem → Prop
  | d, b, [], d1, b1 => d1 = d ∧ b1 = b
  | d, _, Event.process message :: evs, d1, b1 =>
    ∃ m : Mem, slice m 0 message.length = message
      ∧ DriverRun drv (drv.drv_process d m message.length).1
          (drv.drv_process d m message.length).2.1 evs d1 b1
  | _, _, _ :: _, _, _ => False

/-! ## Vocabulary for statements about a session in progress -/

/-- The first `k` passes through the body of the session loop, when each of
them ends at the loop test with `len > 0` (so that the loop goes round):
the fuel left, the state at the top of pass `k + 1` and the calls made so
far.  `none` when one of the `k` passes leaves the loop or runs out of fuel. -/
def rounds {σ δ : Type} (net : Net σ) (drv : TpmDriver δ) :
    Nat → Nat → St σ δ → Option (Nat × St σ δ × List Event)
  | 0, fuel, st => some (fuel, st, [])
  | _ + 1, 0, _ => none
  | k + 1, fuel + 1, st =>
    match sessionBody net drv fuel st with
    | some (Flow.test, len, st1, evs) =>
      if len > 0 then
        match rounds net drv k fuel st1 with
        | none => none
        | some (fuel2, st2, evs2) => some (fuel2, st2, evs ++ evs2)
      else none
    | _ => none

/-! ## Concrete environments

Small scripted instances of the socket layer and of the driver, on which the
definitions above can be evaluated. -/

/-- State of a scripted socket layer: the outcomes still to be handed out. -/
structure Script where
  accepts : List Bool
  recvs : List RecvResult
  sends : List Int
deriving DecidableEq, Repr

/-- Scripted socket layer: every call hands out the next scripted outcome.
When the script is used up, `accept` and `recv` fail and `send` takes all
the bytes it is offered. -/
def scriptNet : Net Script where
  accept s :=
    match s.accepts with
    | [] => (s, false)
    | a :: rest => ({ s with accepts := rest }, a)
  recv s _ :=
    match s.recvs with
    | [] => (s, RecvResult.error)
    | r :: rest => ({ s with recvs := rest }, r)
  send s _ n :=
    match s.sends with
    | [] => (s, (n : Int))
    | c :: rest => ({ s with sends := rest }, c)

/-- Socket layer whose `send` takes at most `k + 1` bytes per call, and at
least one when one is offered; `recv` is scripted. -/
def chunkNet (k : Nat) : Net (List RecvResult) where
  accept s := (s, true)
  recv s _ :=
    match s with
    | [] => (s, RecvResult.error)
    | r :: rest => (rest, r)
  send s _ n := (s, ((min n (k + 1) : Nat) : Int))

/-- Scripted driver: every call writes the next scripted response at
`message` and returns its length; with no response left it returns 0. -/
def scriptDrv : TpmDriver (List (List Byte)) where
  drv_process d m _ :=
    match d with
    | [] => ([], m, 0)
    | r :: rest => (rest, writeBytes m 0 r, r.length)

/-- All-zero memory. -/
def zeroMem : Mem := fun _ => 0

/-- A 10-byte request. -/
def reqA : List Byte := [0x80, 0x01, 0x00, 0x00, 0x00, 0x0A, 0x00, 0x00, 0x01, 0x44]

/-- A 20-byte response. -/
def respA : List Byte :=
  [0x80, 0x01, 0x00, 0x00, 0x00, 0x14, 0x00, 0x00, 0x00, 0x00,
   0x01, 0x02, 0x03, 0x04, 0x05, 0x06, 0x07, 0x08, 0x09, 0x0A]

/-- Scenario A: one 10-byte request, answered by 20 bytes. -/
def stA : St Script (List (List Byte)) :=
  { sock := { accepts := [], recvs := [RecvResult.data reqA], sends := [] }
    drv := [respA]
    buffer := zeroMem
    handles := zeroMem }

/-- Scenario B: one 10-byte request, answered by no bytes at all. -/
def stB : St Script (List (List Byte)) :=
  { sock := { accepts := [], recvs := [RecvResult.data reqA], sends := [] }
    drv := [[]]
    buffer := zeroMem
    handles := zeroMem }

/-- A GetCapability response that reports three handles, 80000000, 80000001
and 80000002: tag, responseSize 31, responseCode 0, moreData 0, capability
TPM_CAP_HANDLES, count 3 (its low byte is byte 18), then the handles. -/
def capResp3 : List Byte :=
  [0x80, 0x01, 0x00, 0x00, 0x00, 0x1F, 0x00, 0x00, 0x00, 0x00,
   0x00, 0x00, 0x00, 0x00, 0x01, 0x00, 0x00, 0x00, 0x03,
   0x80, 0x00, 0x00, 0x00, 0x80, 0x00, 0x00, 0x01, 0x80, 0x00, 0x00, 0x02]

/-- A 10-byte success response. -/
def respOk : List Byte := [0x80, 0x01, 0x00, 0x00, 0x00, 0x0A, 0x00, 0x00, 0x00, 0x00]

/-- Scenario C: the driver answers the capability query with `capResp3` and
every later command with `respOk`. -/
def stC : St Script (List (List Byte)) :=
  { sock := { accepts := [], recvs := [], sends := [] }
    drv := [capResp3, respOk, respOk, respOk]
    buffer := zeroMem
    handles := zeroMem }

/-- A connection on which `recv` first returns 0 while a 10-byte request
would be delivered by a second `recv`. -/
def stZero : St Script (List (List Byte)) :=
  { sock := { accepts := [true, true], recvs := [RecvResult.data [], RecvResult.data reqA],
              sends := [] }
    drv := []
    buffer := zeroMem
    handles := zeroMem }

/-- A connection whose first `recv` fails; a second connection can be accepted. -/
def stRecvError : St Script (List (List Byte)) :=
  { sock := { accepts := [true, true], recvs := [RecvResult.error, RecvResult.data reqA],
              sends := [] }
    drv := []
    buffer := zeroMem
    handles := zeroMem }

/-- Scenario A with a failing transport: the first `send` of the frame returns
`SOCKET_ERROR`, later calls take all they are offered; a second `recv` would
return 0. -/
def stSendError : St Script (List (List Byte)) :=
  { sock := { accepts := [], recvs := [RecvResult.data reqA, RecvResult.data []],
              sends := [SOCKET_ERROR] }
    drv := [respA]
    buffer := zeroMem
    handles := zeroMem }

/-- Two requests on one connection: the first answered by 20 bytes, the second
by none. -/
def stTwo : St Script (List (List Byte)) :=
  { sock := { accepts := [], recvs := [RecvResult.data reqA, RecvResult.data reqA],
              sends := [] }
    drv := [respA, []]
    buffer := zeroMem
    handles := zeroMem }

/-- A connection on which a 10-byte request is served (20-byte response) and
the next `recv` returns 0. -/
def stServedZero : St Script (List (List Byte)) :=
  { sock := { accepts := [true], recvs := [RecvResult.data reqA, RecvResult.data []],
              sends := [] }
    drv := [respA]
    buffer := zeroMem
    handles := zeroMem }

/-- A first connection on which a 10-byte request is served (20-byte response)
and the next `recv` fails; the connection is still to be accepted, and a
second one can be accepted after it. -/
def stServedError : St Script (List (List Byte)) :=
  { sock := { accepts := [true, true],
              recvs := [RecvResult.data reqA, RecvResult.error, RecvResult.data []],
              sends := [] }
    drv := [respA]
    buffer := zeroMem
    handles := zeroMem }

/-- The buffer of Scenario A when the send loop is entered. -/
def frameBufA : Mem := (respond scriptDrv stA.drv (writeBytes stA.buffer 4 reqA) reqA.length).2.1

/-! ## Arithmetic and memory lemmas -/

theorem toInt32_of_range (x : Int) (h1 : -2147483648 ≤ x) (h2 : x < 2147483648) :
    toInt32 x = x := by
  unfold toInt32
  omega

theorem toSizeT_natCast (n : Nat) (h : n < 18446744073709551616) : toSizeT (n : Int) = n := by
  unfold toSizeT
  omega

theorem slice_length (m : Mem) (off : Int) (n : Nat) : (slice m off n).length = n := by
  simp [slice]

theorem slice_writeBytes (m : Mem) (d : Int) (bs : List Byte) :
    slice (writeBytes m d bs) d bs.length = bs := by
  apply List.ext_getElem
  · simp [slice]
  · intro k h1 h2
    simp [slice, writeBytes] at h1 ⊢
    simp [h2, List.getD_eq_getElem]

theorem slice_add (m : Mem) (off : Int) (a b : Nat) :
    slice m off (a + b) = slice m off a ++ slice m (off + a) b := by
  simp [slice, List.range_add, Int.add_assoc]

theorem putLength_eq (buffer : Mem) (len : Int) :
    putLength buffer len =
      store (store (store (store buffer 0 (toUInt8 (len >>> (24 : Nat)))) 1 (toUInt8 (len >>> (16 : Nat)))) 2
        (toUInt8 (len >>> (8 : Nat)))) 3 (toUInt8 len) := by
  rfl

theorem toUInt8_shift_val (L k : Nat) : (toUInt8 ((L : Int) >>> k)).val = L >>> k % 256 := by
  unfold toUInt8
  rw [Int.shiftRight_eq_div_pow, Nat.shiftRight_eq_div_pow]
  rw [← Int.natCast_div]
  simp only [Fin.ofNat, Fin.val_mk]
  omega

theorem slice_store_of_lt (m : Mem) (a : Int) (b : Byte) (off : Int) (n : Nat) (h : a < off) :
    slice (store m a b) off n = slice m off n := by
  simp only [slice, store]
  apply List.map_congr_left
  intro j _
  have : ¬ (off + (j : Int) = a) := by omega
  simp [this]

theorem respond_eq {δ : Type} (drv : TpmDriver δ) (d : δ) (buffer : Mem) (req : List Byte)
    (L : Nat) (hreq : req.length ≤ 4096)
    (hL : (drv.drv_process d (shift (writeBytes buffer 4 req) 4) req.length).2.2 = L)
    (hL4096 : L ≤ 4096) :
    respond drv d (writeBytes buffer 4 req) req.length =
      ((drv.drv_process d (shift (writeBytes buffer 4 req) 4) req.length).1,
       putLength (shift (drv.drv_process d (shift (writeBytes buffer 4 req) 4) req.length).2.1 (-4)) L,
       (L : Int) + 4, req) := by
  have hs : toSizeT (req.length : Int) = req.length := toSizeT_natCast _ (by omega)
  simp only [respond, hs, hL, slice_writeBytes]
  rw [toInt32_of_range (L : Int) (by omega) (by omega), toInt32_of_range _ (by omega) (by omega)]

theorem sessionBody_data {σ δ : Type} (net : Net σ) (drv : TpmDriver δ) (fuel : Nat)
    (st : St σ δ) (req : List Byte) (L : Nat)
    (hrecv : (net.recv st.sock 4096).2 = RecvResult.data req)
    (hreq : 1 ≤ req.length ∧ req.length ≤ 4096)
    (hL : (drv.drv_process st.drv (shift (writeBytes st.buffer 4 req) 4) req.length).2.2 = L)
    (hL4096 : L ≤ 4096) :
    sessionBody net drv fuel st =
      (sendLoop net (respond drv st.drv (writeBytes st.buffer 4 req) req.length).2.1
          ((L : Int) + 4) fuel (net.recv st.sock 4096).1 0).map
        (fun r => (Flow.test, (L : Int) + 4,
          { st with
            sock := r.1
            drv := (respond drv st.drv (writeBytes st.buffer 4 req) req.length).1
            buffer := (respond drv st.drv (writeBytes st.buffer 4 req) req.length).2.1 },
          Event.recv req.length :: Event.process req :: r.2.2)) := by
  have hq := respond_eq drv st.drv st.buffer req L hreq.2 hL hL4096
  have hlen : toInt32 (req.length : Int) = req.length :=
    toInt32_of_range _ (by omega) (by omega)
  have h1 : ¬ ((req.length : Int) = SOCKET_ERROR) := by unfold SOCKET_ERROR; omega
  have h0 : ¬ ((req.length : Int) = 0) := by omega
  simp only [sessionBody, hrecv, RecvResult.len, hlen, h1, h0, if_false, hq]
  cases sendLoop net _ ((L : Int) + 4) fuel (net.recv st.sock 4096).1 0 with
  | none => rfl
  | some r => rfl

theorem slice_shift (m : Mem) (a off : Int) (n : Nat) :
    slice (shift m a) off n = slice m (a + off) n := by
  simp [slice, shift, Int.add_assoc]

theorem putLength_prefix (m : Mem) (L : Nat) :
    (slice (putLength m L) 0 4).map Fin.val =
      [L >>> 24 % 256, L >>> 16 % 256, L >>> 8 % 256, L % 256] := by
  have h3 : (toUInt8 (L : Int)).val = L % 256 := by
    simp only [toUInt8, Fin.ofNat, Fin.val_mk]
    omega
  simp only [putLength_eq, slice, store, List.range_succ, List.range_zero, List.map_append,
    List.map_cons, List.map_nil, List.nil_append, List.cons_append]
  have e0 : (0 : Int) + ((0 : Nat) : Int) = 0 := by decide
  have e1 : (0 : Int) + ((1 : Nat) : Int) = 1 := by decide
  have e2 : (0 : Int) + ((2 : Nat) : Int) = 2 := by decide
  have e3 : (0 : Int) + ((3 : Nat) : Int) = 3 := by decide
  rw [e0, e1, e2, e3]
  have d01 : ¬ ((0 : Int) = 1) := by decide
  have d02 : ¬ ((0 : Int) = 2) := by decide
  have d03 : ¬ ((0 : Int) = 3) := by decide
  have d12 : ¬ ((1 : Int) = 2) := by decide
  have d13 : ¬ ((1 : Int) = 3) := by decide
  have d23 : ¬ ((2 : Int) = 3) := by decide
  simp only [d01, d02, d03, d12, d13, d23, if_true, if_false, h3]
  rw [toUInt8_shift_val L 24, toUInt8_shift_val L 16, toUInt8_shift_val L 8]

theorem putLength_payload (m : Mem) (len : Int) (n : Nat) :
    slice (putLength m len) 4 n = slice m 4 n := by
  rw [putLength_eq]
  repeat rw [slice_store_of_lt _ _ _ _ _ (by omega)]

/-- C1: a non-empty request of at most 4096 bytes, answered by the driver with
`L ≤ 4096` bytes, reaches the send loop as a frame of `L + 4` bytes: the
length `L` in big-endian order, then the first `L` bytes the driver left at
`message`.  The endianness test always takes the big-endian stores. -/
theorem frame_is_length_prefixed {σ δ : Type} (net : Net σ) (drv : TpmDriver δ) (fuel : Nat)
    (st : St σ δ) (req : List Byte) (L : Nat)
    (hrecv : (net.recv st.sock 4096).2 = RecvResult.data req)
    (hreq : 1 ≤ req.length ∧ req.length ≤ 4096)
    (hL : (drv.drv_process st.drv (shift (writeBytes st.buffer 4 req) 4) req.length).2.2 = L)
    (hL4096 : L ≤ 4096) :
    sessionBody net drv fuel st =
      (sendLoop net (respond drv st.drv (writeBytes st.buffer 4 req) req.length).2.1
          ((L : Int) + 4) fuel (net.recv st.sock 4096).1 0).map
        (fun r => (Flow.test, (L : Int) + 4,
          { st with
            sock := r.1
            drv := (respond drv st.drv (writeBytes st.buffer 4 req) req.length).1
            buffer := (respond drv st.drv (writeBytes st.buffer 4 req) req.length).2.1 },
          Event.recv req.length :: Event.process req :: r.2.2))
    ∧ (slice (respond drv st.drv (writeBytes st.buffer 4 req) req.length).2.1 0 (L + 4)).length
        = L + 4
    ∧ ((slice (respond drv st.drv (writeBytes st.buffer 4 req) req.length).2.1 0 (L + 4)).take
        4).map Fin.val = [L >>> 24 % 256, L >>> 16 % 256, L >>> 8 % 256, L % 256]
    ∧ (slice (respond drv st.drv (writeBytes st.buffer 4 req) req.length).2.1 0 (L + 4)).drop 4
        = slice (drv.drv_process st.drv (shift (writeBytes st.buffer 4 req) 4) req.length).2.1 0 L
    ∧ ∀ (m : Mem) (len : Int), putLength m len =
        store (store (store (store m 0 (toUInt8 (len >>> (24 : Nat)))) 1 (toUInt8 (len >>> (16 : Nat)))) 2
          (toUInt8 (len >>> (8 : Nat)))) 3 (toUInt8 len) := by
  have hq := respond_eq drv st.drv st.buffer req L hreq.2 hL hL4096
  have hsplit : ∀ m : Mem, slice m 0 (L + 4) = slice m 0 4 ++ slice m 4 L := by
    intro m
    rw [Nat.add_comm L 4, slice_add]
    simp
  have hlen4 : ∀ m : Mem, (slice m 0 4).length = 4 := fun m => slice_length m 0 4
  refine ⟨sessionBody_data net drv fuel st req L hrecv hreq hL hL4096, slice_length _ _ _, ?_, ?_,
    putLength_eq⟩
  · rw [hq, hsplit, List.take_left' (hlen4 _)]
    exact putLength_prefix _ L
  · rw [hq, hsplit, List.drop_left' (hlen4 _)]
    simp only []
    rw [putLength_payload, slice_shift]
    simp

/-- Scenarios A and B for `frame_is_length_prefixed`: a 20-byte response is
framed as `00 00 00 14` followed by the 20 bytes, an empty response as
`00 00 00 00` and nothing else. -/
theorem frame_is_length_prefixed_witness :
    ((scriptNet.recv stA.sock 4096).2 = RecvResult.data reqA
      ∧ (1 ≤ reqA.length ∧ reqA.length ≤ 4096)
      ∧ (scriptDrv.drv_process stA.drv (shift (writeBytes stA.buffer 4 reqA) 4)
          reqA.length).2.2 = 20
      ∧ ((slice (respond scriptDrv stA.drv (writeBytes stA.buffer 4 reqA) reqA.length).2.1 0
          (20 + 4)).take 4).map Fin.val = [0, 0, 0, 0x14]
      ∧ (slice (respond scriptDrv stA.drv (writeBytes stA.buffer 4 reqA) reqA.length).2.1 0
          (20 + 4)).drop 4 = respA)
    ∧ ((scriptDrv.drv_process stB.drv (shift (writeBytes stB.buffer 4 reqA) 4)
          reqA.length).2.2 = 0
      ∧ slice (respond scriptDrv stB.drv (writeBytes stB.buffer 4 reqA) reqA.length).2.1 0
          (0 + 4) = [0, 0, 0, 0]) :=
  have hA := frame_is_length_prefixed scriptNet scriptDrv 1 stA reqA 20 (by decide) (by decide)
    (by decide) (by decide)
  have hB := frame_is_length_prefixed scriptNet scriptDrv 1 stB reqA 0 (by decide) (by decide)
    (by decide) (by decide)
  ⟨⟨by decide, by decide, by decide, hA.2.2.1, hA.2.2.2.1.trans (by decide)⟩,
   ⟨by decide, by
      have h4 := hB.2.2.1
      have h0 := hB.2.2.2.1
      have hl := hB.2.1
      revert h4 h0 hl
      generalize slice (respond scriptDrv stB.drv (writeBytes stB.buffer 4 reqA)
        reqA.length).2.1 0 (0 + 4) = fr
      intro h4 h0 hl
      match fr, hl, h4 with
      | [a, b, c, d], _, h4 =>
        simp only [List.take, List.map, List.cons.injEq, and_true] at h4
        obtain ⟨ha, hb, hc, hd⟩ := h4
        have ha : a = 0 := Fin.ext ha
        have hb : b = 0 := Fin.ext hb
        have hc : c = 0 := Fin.ext hc
        have hd : d = 0 := Fin.ext hd
        subst ha hb hc hd
        rfl⟩⟩

/-! ## The send loop -/

theorem slice_drop (m : Mem) (n k : Nat) (h : k ≤ n) :
    (slice m 0 n).drop k = slice m k (n - k) := by
  have hn : n = k + (n - k) := by omega
  conv_lhs => rw [hn, slice_add]
  rw [List.drop_left' (slice_length m 0 k)]
  simp

theorem sendLoop_done {σ : Type} (net : Net σ) (buffer : Mem) (len : Int) (fuel : Nat) (s : σ) :
    sendLoop net buffer len fuel s len = some (s, len, []) := by
  cases fuel <;> simp [sendLoop]

theorem sendLoop_step {σ : Type} (net : Net σ) (buffer : Mem) (len : Int) (fuel : Nat) (s : σ)
    (written : Int) (h : written ≠ len) :
    sendLoop net buffer len (fuel + 1) s written =
      (sendLoop net buffer len fuel (net.send s (shift buffer written) (toSizeT (toInt32 (len - written)))).1
        (toInt32 (written + toInt32
          (net.send s (shift buffer written) (toSizeT (toInt32 (len - written)))).2))).map
        (fun r => (r.1, r.2.1,
          Event.send written (toSizeT (toInt32 (len - written)))
            (toInt32 (net.send s (shift buffer written) (toSizeT (toInt32 (len - written)))).2) :: r.2.2)) := by
  simp only [sendLoop, h, ne_eq, not_false_eq_true, if_true]
  cases sendLoop net buffer len fuel _ _ with
  | none => rfl
  | some r => rfl

theorem sendLoop_partial {σ : Type} (net : Net σ) (buffer : Mem) (T : Nat)
    (hT : T < 2147483648)
    (hsend : ∀ (s : σ) (m : Mem) (n : Nat), 1 ≤ n →
      1 ≤ (net.send s m n).2 ∧ (net.send s m n).2 ≤ n) :
    ∀ (fuel : Nat) (s : σ) (w : Nat), w ≤ T → T - w ≤ fuel →
      ∃ s1 evs, sendLoop net buffer T fuel s w = some (s1, (T : Int), evs)
        ∧ SendCalls net buffer s evs s1
        ∧ SendChain buffer T w evs
        ∧ (evs.map (Event.taken buffer)).flatten = slice buffer w (T - w) := by
  intro fuel
  induction fuel with
  | zero =>
    intro s w hw hf
    have hwT : w = T := by omega
    subst hwT
    exact ⟨s, [], sendLoop_done net buffer _ 0 s, rfl, rfl, by simp [slice]⟩
  | succ fuel ih =>
    intro s w hw hf
    by_cases hwT : w = T
    · subst hwT
      exact ⟨s, [], sendLoop_done net buffer _ _ s, rfl, rfl, by simp [slice]⟩
    · have hne : (w : Int) ≠ (T : Int) := by omega
      have hsize : toSizeT (toInt32 ((T : Int) - (w : Int))) = T - w := by
        rw [toInt32_of_range _ (by omega) (by omega)]
        unfold toSizeT
        omega
      obtain ⟨h1, h2⟩ := hsend s (shift buffer w) (T - w) (by omega)
      generalize hr : net.send s (shift buffer w) (T - w) = r at h1 h2
      obtain ⟨c, hc⟩ : ∃ c : Nat, r.2 = (c : Int) := ⟨r.2.toNat, by omega⟩
      have hc32 : toInt32 r.2 = (c : Int) := by
        rw [toInt32_of_range _ (by omega) (by omega), hc]
      have hw32 : toInt32 ((w : Int) + (c : Int)) = ((w + c : Nat) : Int) := by
        rw [toInt32_of_range _ (by omega) (by omega)]
        push_cast
        rfl
      obtain ⟨s1, evs, hrun, hcalls, hchain, hcat⟩ := ih r.1 (w + c) (by omega) (by omega)
      refine ⟨s1, Event.send w (T - w) c :: evs, ?_, ?_, ?_, ?_⟩
      · rw [sendLoop_step net buffer T fuel s w hne, hsize, hr, hc32, hw32, hrun]
        rfl
      · exact ⟨by rw [hr, hc], by rw [hr]; exact hcalls⟩
      · refine ⟨rfl, by omega, ?_, by omega, by omega, by omega, ?_⟩
        · simp only [Event.offered, Int.toNat_ofNat]
          rw [slice_drop _ _ _ hw]
        · have : (w : Int) + (c : Int) = ((w + c : Nat) : Int) := by push_cast; rfl
          rw [this]
          exact hchain
      · simp only [List.map_cons, List.flatten_cons, Event.taken, Int.toNat_ofNat, hcat]
        have hsplit : T - w = c + (T - (w + c)) := by omega
        rw [hsplit, slice_add]
        push_cast
        rfl

/-- C7: a frame of `T = L + 4` bytes, written through a `send` that takes between
1 and all of the bytes it is offered at each call: with fuel `T` the send loop
finishes with `written = T`; the calls it reports are its calls to `net.send`,
each `count` being what `net.send` returned (`SendCalls`); they form a
`SendChain` from 0 (each call is made at the current `written` with exactly the
bytes not yet written, and `written` grows strictly); the bytes taken, in call
order, are the frame. -/
theorem send_loop_transmits_frame {σ : Type} (net : Net σ) (buffer : Mem) (L : Nat)
    (hL : L ≤ 4096) (fuel : Nat) (hfuel : L + 4 ≤ fuel) (s : σ)
    (hsend : ∀ (s : σ) (m : Mem) (n : Nat), 1 ≤ n →
      1 ≤ (net.send s m n).2 ∧ (net.send s m n).2 ≤ n) :
    ∃ s1 evs, sendLoop net buffer ((L : Int) + 4) fuel s 0 = some (s1, (L : Int) + 4, evs)
      ∧ SendCalls net buffer s evs s1
      ∧ SendChain buffer ((L : Int) + 4) 0 evs
      ∧ (evs.map (Event.taken buffer)).flatten = slice buffer 0 (L + 4) := by
  obtain ⟨s1, evs, h1, hc, h2, h3⟩ :=
    sendLoop_partial net buffer (L + 4) (by omega) hsend fuel s 0 (by omega) (by omega)
  exact ⟨s1, evs, by simpa using h1, hc, by simpa using h2, by simpa using h3⟩

/-- The 24-byte frame of Scenario A, sent 7 bytes at a time: four calls, at
offsets 0, 7, 14 and 21, taking 7, 7, 7 and 3 bytes. -/
theorem send_loop_transmits_frame_witness :
    (20 ≤ 4096 ∧ 20 + 4 ≤ 24)
    ∧ (∃ s1 evs, sendLoop (chunkNet 6) frameBufA ((20 : Nat) + 4) 24 [] 0
          = some (s1, ((20 : Nat) : Int) + 4, evs)
        ∧ SendCalls (chunkNet 6) frameBufA [] evs s1
        ∧ SendChain frameBufA (((20 : Nat) : Int) + 4) 0 evs
        ∧ (evs.map (Event.taken frameBufA)).flatten = slice frameBufA 0 (20 + 4))
    ∧ (sendLoop (chunkNet 6) frameBufA 24 24 [] 0).map (fun r => r.2)
        = some (24, [Event.send 0 24 7, Event.send 7 17 7, Event.send 14 10 7,
            Event.send 21 3 3])
    ∧ slice frameBufA 0 24 = [0, 0, 0, 0x14] ++ respA :=
  ⟨by decide,
   send_loop_transmits_frame (chunkNet 6) frameBufA 20 (by decide) 24 (by decide) []
     (fun _ _ n hn => by
        simp only [chunkNet]
        omega),
   by decide, by decide⟩

/-! ## The cleanup block -/

theorem slice_congr (m1 m2 : Mem) (off : Int) (n : Nat)
    (h : ∀ j : Nat, j < n → m1 (off + j) = m2 (off + j)) :
    slice m1 off n = slice m2 off n := by
  simp only [slice]
  apply List.map_congr_left
  intro j hj
  exact h j (List.mem_range.mp hj)

theorem slice_take (m : Mem) (off : Int) (n k : Nat) (h : k ≤ n) :
    (slice m off n).take k = slice m off k := by
  have hn : n = k + (n - k) := by omega
  rw [hn, slice_add, List.take_left' (slice_length m off k)]

theorem slice_memcpy_self (dst : Mem) (d : Int) (src : Mem) (s : Int) (n : Nat) :
    slice (memcpy dst d src s n) d n = slice src s n := by
  simp only [slice]
  apply List.map_congr_left
  intro j hj
  have hj := List.mem_range.mp hj
  have h1 : d ≤ d + (j : Int) ∧ d + (j : Int) < d + (n : Int) := by omega
  simp only [memcpy, h1, and_self, if_true]
  congr 1
  omega

theorem slice_memcpy_before (dst : Mem) (d : Int) (src : Mem) (s : Int) (k : Nat)
    (off : Int) (n : Nat) (h : off + n ≤ d) :
    slice (memcpy dst d src s k) off n = slice dst off n := by
  apply slice_congr
  intro j hj
  have h1 : ¬ (d ≤ off + (j : Int) ∧ off + (j : Int) < d + (k : Int)) := by omega
  simp only [memcpy, h1, if_false]

theorem slice_ofList (bs : List Byte) : slice (ofList bs) 0 bs.length = bs := by
  apply List.ext_getElem
  · simp [slice]
  · intro k h1 h2
    simp [slice, ofList, List.getD_eq_getElem, h2]

/-- The message of one pass of the flush loop, for `i ≥ 0`: a 14-byte command
whose first 10 bytes are those of the template. -/
theorem flush_message_header (buffer handles : Mem) (i : Int) (hi : 0 ≤ i) :
    (slice (memcpy (memcpy buffer 0 (ofList cmdFlushContext) 0 cmdFlushContext.length)
        (10 + i) handles i 4) 0 cmdFlushContext.length).length = 14
    ∧ (slice (memcpy (memcpy buffer 0 (ofList cmdFlushContext) 0 cmdFlushContext.length)
        (10 + i) handles i 4) 0 cmdFlushContext.length).take 10
      = [0x80, 0x01, 0x00, 0x00, 0x00, 0x0E, 0x00, 0x00, 0x01, 0x65] := by
  refine ⟨by simp [slice_length, cmdFlushContext], ?_⟩
  rw [slice_take _ _ _ _ (by simp [cmdFlushContext]),
    slice_memcpy_before _ _ _ _ _ _ _ (by omega),
    ← slice_take _ 0 cmdFlushContext.length 10 (by simp [cmdFlushContext]),
    slice_memcpy_self, slice_ofList]
  rfl

theorem flushLoop_events {δ : Type} (drv : TpmDriver δ) :
    ∀ (n : Nat) (loc : Locals δ), 0 ≤ loc.i → loc.i + 4 * n < 2147483648 →
      (flushLoop drv n loc).2.length = n
      ∧ (∀ e ∈ (flushLoop drv n loc).2, e.isFlush = true)
      ∧ (flushLoop drv n loc).1.cmdGetCap = loc.cmdGetCap := by
  intro n
  induction n with
  | zero => intro loc _ _; simp [flushLoop]
  | succ n ih =>
    intro loc h0 h1
    have hi : toInt32 (loc.i + 4) = loc.i + 4 := toInt32_of_range _ (by omega) (by omega)
    obtain ⟨hm1, hm2⟩ := flush_message_header loc.buffer loc.handles loc.i h0
    simp only [flushLoop, hi]
    obtain ⟨a, b, c⟩ := ih
      { loc with
        drv := (drv.drv_process loc.drv
          (memcpy (memcpy loc.buffer 0 (ofList cmdFlushContext) 0 cmdFlushContext.length)
            (10 + loc.i) loc.handles loc.i 4) cmdFlushContext.length).1
        buffer := (drv.drv_process loc.drv
          (memcpy (memcpy loc.buffer 0 (ofList cmdFlushContext) 0 cmdFlushContext.length)
            (10 + loc.i) loc.handles loc.i 4) cmdFlushContext.length).2.1
        i := loc.i + 4 } (by simp only; omega) (by simp only; omega)
    refine ⟨by simp [a], ?_, c⟩
    intro e he
    rcases List.mem_cons.mp he with h | h
    · subst h
      simp only [Event.isFlush, hm1, hm2]
      decide
    · exact b e h

theorem isFlush_process (e : Event) (h : e.isFlush = true) : ∃ message, e = Event.process message := by
  cases e with
  | process message => exact ⟨message, rfl⟩
  | _ => simp [Event.isFlush] at h

theorem cleanup_events {σ δ : Type} (drv : TpmDriver δ) (st : St σ δ) :
    ∃ flushes, (cleanup drv st).2 = Event.process cmdGetCap :: flushes
      ∧ flushes.length = (capResponse drv st 18).val
      ∧ ∀ e ∈ flushes, e.isFlush = true := by
  have hmsg : slice (memcpy st.buffer 0 (ofList cmdGetCap) 0 cmdGetCap.length) 0 cmdGetCap.length
      = cmdGetCap := by
    rw [slice_memcpy_self, slice_ofList]
  have hn : ((capResponse drv st 18).val : Int) < 256 := by
    have := (capResponse drv st 18).isLt
    omega
  obtain ⟨a, b, _⟩ := flushLoop_events drv (capResponse drv st 18).val
    { drv := (drv.drv_process st.drv (memcpy st.buffer 0 (ofList cmdGetCap) 0 cmdGetCap.length)
        cmdGetCap.length).1
      buffer := capResponse drv st
      handles := memcpy st.handles 0 (capResponse drv st) 19 128
      cmdGetCap := ofList cmdGetCap
      i := 0 } (by simp) (by simp only; omega)
  refine ⟨_, ?_, a, b⟩
  simp only [cleanup, List.range_succ, List.range_zero, List.nil_append, cleanupModes, cleanupMode,
    List.append_nil, hmsg]
  rfl

theorem flush_message_later (buffer handles : Mem) (i : Int) (hi : 4 ≤ i) :
    slice (memcpy (memcpy buffer 0 (ofList cmdFlushContext) 0 cmdFlushContext.length)
        (10 + i) handles i 4) 0 cmdFlushContext.length = cmdFlushContext := by
  rw [slice_memcpy_before _ _ _ _ _ _ _ (by simp [cmdFlushContext]; omega), slice_memcpy_self,
    slice_ofList]

theorem flush_message_first (buffer handles : Mem) :
    slice (memcpy (memcpy buffer 0 (ofList cmdFlushContext) 0 cmdFlushContext.length)
        (10 + 0) handles 0 4) 0 cmdFlushContext.length
      = cmdFlushContext.take 10 ++ slice handles 0 4 := by
  have h14 : cmdFlushContext.length = 10 + 4 := rfl
  have e : (0 : Int) + ((10 : Nat) : Int) = 10 + 0 := by decide
  conv_lhs => rw [h14, slice_add, e, slice_memcpy_self]
  rw [slice_memcpy_before _ _ _ _ _ _ _ (by decide),
    ← slice_take _ 0 (10 + 4) 10 (by decide), slice_memcpy_self, ← h14, slice_ofList]

theorem flushLoop_later {δ : Type} (drv : TpmDriver δ) :
    ∀ (n : Nat) (loc : Locals δ), 4 ≤ loc.i → loc.i + 4 * n < 2147483648 →
      (flushLoop drv n loc).2 = List.replicate n (Event.process cmdFlushContext) := by
  intro n
  induction n with
  | zero => intro loc _ _; rfl
  | succ n ih =>
    intro loc h0 h1
    have hi : toInt32 (loc.i + 4) = loc.i + 4 := toInt32_of_range _ (by omega) (by omega)
    simp only [flushLoop, hi, flush_message_later _ _ _ h0, List.replicate_succ]
    rw [ih _ (by simp only; omega) (by simp only; omega)]

/-- The calls of the cleanup block, for any driver and any state: the
GetCapability command, then, when byte 18 of the response is `n + 1`, one
FlushContext command carrying response bytes 19..22 followed by `n` copies of
the unmodified template `cmdFlushContext`. -/
theorem cleanup_trace {σ δ : Type} (drv : TpmDriver δ) (st : St σ δ) :
    (cleanup drv st).2 = Event.process cmdGetCap ::
      (match (capResponse drv st 18).val with
        | 0 => []
        | n + 1 =>
          Event.process (cmdFlushContext.take 10 ++ slice (capResponse drv st) 19 4)
            :: List.replicate n (Event.process cmdFlushContext)) := by
  have hmsg : slice (memcpy st.buffer 0 (ofList cmdGetCap) 0 cmdGetCap.length) 0 cmdGetCap.length
      = cmdGetCap := by
    rw [slice_memcpy_self, slice_ofList]
  have hn : (capResponse drv st 18).val < 256 := (capResponse drv st 18).isLt
  have hunf : (cleanup drv st).2 = Event.process cmdGetCap ::
      (flushLoop drv (capResponse drv st 18).val
        { drv := (drv.drv_process st.drv
            (memcpy st.buffer 0 (ofList cmdGetCap) 0 cmdGetCap.length) cmdGetCap.length).1
          buffer := capResponse drv st
          handles := memcpy st.handles 0 (capResponse drv st) 19 128
          cmdGetCap := ofList cmdGetCap
          i := 0 }).2 := by
    simp only [cleanup, List.range_succ, List.range_zero, List.nil_append, cleanupModes,
      cleanupMode, List.append_nil, hmsg]
    rfl
  rw [hunf]
  congr 1
  generalize (capResponse drv st 18).val = k at hn
  cases k with
  | zero => rfl
  | succ n =>
    have hi : toInt32 ((0 : Int) + 4) = 4 := by decide
    have hh : slice (memcpy st.handles 0 (capResponse drv st) 19 128) 0 4
        = slice (capResponse drv st) 19 4 := by
      rw [← slice_take _ 0 128 4 (by decide), slice_memcpy_self, slice_take _ _ _ _ (by decide)]
    have e0 : (10 : Int) + 0 = 10 + 0 := rfl
    simp only [flushLoop, hi]
    rw [flush_message_first, hh, flushLoop_later drv n _ (by simp) (by simp only; omega)]

theorem flushLoop_driverRun {δ : Type} (drv : TpmDriver δ) :
    ∀ (n : Nat) (loc : Locals δ),
      DriverRun drv loc.drv loc.buffer (flushLoop drv n loc).2
        (flushLoop drv n loc).1.drv (flushLoop drv n loc).1.buffer := by
  intro n
  induction n with
  | zero => intro loc; exact ⟨rfl, rfl⟩
  | succ n ih =>
    intro loc
    simp only [flushLoop, DriverRun]
    refine ⟨memcpy (memcpy loc.buffer 0 (ofList cmdFlushContext) 0 cmdFlushContext.length)
      (10 + loc.i) loc.handles loc.i 4, by rw [slice_length], ?_⟩
    rw [slice_length]
    exact ih
      { loc with
        drv := (drv.drv_process loc.drv
          (memcpy (memcpy loc.buffer 0 (ofList cmdFlushContext) 0 cmdFlushContext.length)
            (10 + loc.i) loc.handles loc.i 4) cmdFlushContext.length).1
        buffer := (drv.drv_process loc.drv
          (memcpy (memcpy loc.buffer 0 (ofList cmdFlushContext) 0 cmdFlushContext.length)
            (10 + loc.i) loc.handles loc.i 4) cmdFlushContext.length).2.1
        i := toInt32 (loc.i + 4) }

theorem cleanup_driverRun {σ δ : Type} (drv : TpmDriver δ) (st : St σ δ) :
    DriverRun drv st.drv st.buffer (cleanup drv st).2 (cleanup drv st).1.drv
      (cleanup drv st).1.buffer := by
  simp only [cleanup, List.range_succ, List.range_zero, List.nil_append, cleanupModes,
    cleanupMode, List.append_nil, DriverRun]
  refine ⟨memcpy st.buffer 0 (ofList cmdGetCap) 0 cmdGetCap.length, by rw [slice_length], ?_⟩
  rw [slice_length]
  simp only [List.append_eq, List.append_nil]
  exact flushLoop_driverRun drv (capResponse drv st 18).val
    { drv := (drv.drv_process st.drv (memcpy st.buffer 0 (ofList cmdGetCap) 0 cmdGetCap.length)
        cmdGetCap.length).1
      buffer := capResponse drv st
      handles := memcpy st.handles 0 (capResponse drv st) 19 128
      cmdGetCap := ofList cmdGetCap
      i := 0 }

/-- C3: the cleanup block calls the driver once with the GetCapability
command and then exactly `handleCount` more times, each time with a 14-byte
message that starts with the FlushContext header, where `handleCount` is the
value of byte 18 of the buffer after the GetCapability call; with
`handleCount = 0` the GetCapability call is the only call.  The calls listed
are applications of `drv.drv_process`, threaded through the driver state from
the one the block was entered with to the one it leaves (`DriverRun`). -/
theorem cleanup_call_count {σ δ : Type} (drv : TpmDriver δ) (st : St σ δ) :
    ∃ flushes, (cleanup drv st).2 = Event.process cmdGetCap :: flushes
      ∧ flushes.length = (capResponse drv st 18).val
      ∧ (∀ e ∈ flushes, e.isFlush = true ∧ e ≠ Event.process cmdGetCap)
      ∧ ((capResponse drv st 18).val = 0 → (cleanup drv st).2 = [Event.process cmdGetCap])
      ∧ DriverRun drv st.drv st.buffer (cleanup drv st).2 (cleanup drv st).1.drv
          (cleanup drv st).1.buffer
      ∧ DriverRun drv
          (drv.drv_process st.drv (memcpy st.buffer 0 (ofList cmdGetCap) 0 cmdGetCap.length)
            cmdGetCap.length).1
          (capResponse drv st) flushes (cleanup drv st).1.drv (cleanup drv st).1.buffer := by
  obtain ⟨flushes, h1, h2, h3⟩ := cleanup_events drv st
  have hrun := cleanup_driverRun drv st
  refine ⟨flushes, h1, h2, ?_, ?_, hrun, ?_⟩
  · intro e he
    refine ⟨h3 e he, ?_⟩
    intro hcap
    have := h3 e he
    rw [hcap] at this
    exact absurd this (by decide)
  · intro h0
    rw [h0] at h2
    rw [h1, List.length_eq_zero.mp h2]
  · have hflush : flushes = (cleanup drv st).2.tail := by rw [h1]; rfl
    rw [hflush]
    simp only [cleanup, List.range_succ, List.range_zero, List.nil_append, cleanupModes,
      cleanupMode, List.append_nil, List.append_eq, List.tail_cons]
    exact flushLoop_driverRun drv (capResponse drv st 18).val
      { drv := (drv.drv_process st.drv (memcpy st.buffer 0 (ofList cmdGetCap) 0 cmdGetCap.length)
          cmdGetCap.length).1
        buffer := capResponse drv st
        handles := memcpy st.handles 0 (capResponse drv st) 19 128
        cmdGetCap := ofList cmdGetCap
        i := 0 }

/-- C2, evaluated on a GetCapability response that reports the three handles
80000000, 80000001 and 80000002: the first FlushContext command carries
80000000, the second and the third carry 00000000 (the unmodified template),
not 80000001 and 80000002. -/
theorem flush_commands_after_first_carry_no_handle :
    (capResponse scriptDrv stC 18).val = 3
    ∧ slice (capResponse scriptDrv stC) 19 12
        = [0x80, 0x00, 0x00, 0x00, 0x80, 0x00, 0x00, 0x01, 0x80, 0x00, 0x00, 0x02]
    ∧ (cleanup scriptDrv stC).2 =
        [Event.process cmdGetCap,
         Event.process [0x80, 0x01, 0x00, 0x00, 0x00, 0x0E, 0x00, 0x00, 0x01, 0x65,
           0x80, 0x00, 0x00, 0x00],
         Event.process [0x80, 0x01, 0x00, 0x00, 0x00, 0x0E, 0x00, 0x00, 0x01, 0x65,
           0x00, 0x00, 0x00, 0x00],
         Event.process [0x80, 0x01, 0x00, 0x00, 0x00, 0x0E, 0x00, 0x00, 0x01, 0x65,
           0x00, 0x00, 0x00, 0x00]] := by
  refine ⟨by decide, by decide, ?_⟩
  rw [cleanup_trace]
  have h : (capResponse scriptDrv stC 18).val = 2 + 1 := by decide
  have h4 : slice (capResponse scriptDrv stC) 19 4 = [0x80, 0x00, 0x00, 0x00] := by decide
  rw [h]
  simp only [h4]
  rfl

/-! ## The session loop -/

theorem writeBytes_nil (m : Mem) (d : Int) : writeBytes m d [] = m := by
  funext j
  have h : ¬ (d ≤ j ∧ j < d + (([] : List Byte).length : Int)) := by
    simp only [List.length_nil]
    omega
  simp only [writeBytes, h, if_false]

theorem sessionBody_error {σ δ : Type} (net : Net σ) (drv : TpmDriver δ) (fuel : Nat)
    (st : St σ δ) (h : (net.recv st.sock 4096).2 = RecvResult.error) :
    sessionBody net drv fuel st =
      some (Flow.brk, -1, { st with sock := (net.recv st.sock 4096).1 }, [Event.recv (-1)]) := by
  have h32 : toInt32 SOCKET_ERROR = -1 := by decide
  simp only [sessionBody, h, RecvResult.len, h32]
  rfl

theorem sessionBody_zero {σ δ : Type} (net : Net σ) (drv : TpmDriver δ) (fuel : Nat)
    (st : St σ δ) (h : (net.recv st.sock 4096).2 = RecvResult.data []) :
    sessionBody net drv fuel st =
      some (Flow.test, 0, { st with sock := (net.recv st.sock 4096).1 }, [Event.recv 0]) := by
  have h32 : toInt32 ((([] : List Byte).length : Nat) : Int) = 0 := by decide
  have hne : ¬ ((0 : Int) = SOCKET_ERROR) := by decide
  simp only [sessionBody, h, RecvResult.len, h32, hne, if_false, if_true, writeBytes_nil]

theorem sessionLoop_error {σ δ : Type} (net : Net σ) (drv : TpmDriver δ) (fuel : Nat)
    (st : St σ δ) (h : (net.recv st.sock 4096).2 = RecvResult.error) :
    sessionLoop net drv (fuel + 1) st =
      some ({ st with sock := (net.recv st.sock 4096).1 }, [Event.recv (-1)]) := by
  simp only [sessionLoop, sessionBody_error net drv fuel st h]

theorem sessionLoop_zero {σ δ : Type} (net : Net σ) (drv : TpmDriver δ) (fuel : Nat)
    (st : St σ δ) (h : (net.recv st.sock 4096).2 = RecvResult.data []) :
    sessionLoop net drv (fuel + 1) st =
      some ({ st with sock := (net.recv st.sock 4096).1 }, [Event.recv 0]) := by
  have hle : ¬ ((0 : Int) > 0) := by decide
  simp only [sessionLoop, sessionBody_zero net drv fuel st h, hle, if_false]

theorem cleanup_head {σ δ : Type} (drv : TpmDriver δ) (st : St σ δ) :
    (cleanup drv st).2.head? = some (Event.process cmdGetCap) := by
  rw [cleanup_trace]
  rfl

theorem cleanup_all_process {σ δ : Type} (drv : TpmDriver δ) (st : St σ δ) :
    ∀ e ∈ (cleanup drv st).2, ∃ message, e = Event.process message := by
  obtain ⟨flushes, h1, _, h3⟩ := cleanup_events drv st
  intro e he
  rw [h1] at he
  rcases List.mem_cons.mp he with h | h
  · exact ⟨_, h⟩
  · exact isFlush_process e (h3 e h)

theorem serve_eq {σ δ : Type} (net : Net σ) (drv : TpmDriver δ) (fuel : Nat) (st : St σ δ) :
    serve net drv fuel st =
      (sessionLoop net drv fuel st).map
        (fun r => ((cleanup drv r.1).1, r.2 ++ Event.shutdownClient :: (cleanup drv r.1).2)) := by
  unfold serve
  cases sessionLoop net drv fuel st with
  | none => rfl
  | some r => rfl

theorem rounds_sessionLoop {σ δ : Type} (net : Net σ) (drv : TpmDriver δ) :
    ∀ (k f0 : Nat) (st0 : St σ δ) (f : Nat) (st : St σ δ) (pre : List Event),
      rounds net drv k f0 st0 = some (f, st, pre) →
      sessionLoop net drv f0 st0 =
        (sessionLoop net drv f st).map (fun r => (r.1, pre ++ r.2)) := by
  intro k
  induction k with
  | zero =>
    intro f0 st0 f st pre h
    simp only [rounds, Option.some.injEq, Prod.mk.injEq] at h
    obtain ⟨h1, h2, h3⟩ := h
    subst h1 h2 h3
    cases sessionLoop net drv f0 st0 with
    | none => rfl
    | some r => rfl
  | succ k ih =>
    intro f0 st0 f st pre h
    cases f0 with
    | zero => simp [rounds] at h
    | succ f0 =>
      simp only [rounds] at h
      simp only [sessionLoop]
      cases hb : sessionBody net drv f0 st0 with
      | none => simp [hb] at h
      | some b =>
        obtain ⟨flow, len, st1, evs⟩ := b
        cases flow with
        | brk => simp [hb] at h
        | test =>
          simp only [hb] at h ⊢
          by_cases hlen : len > 0
          · simp only [hlen, if_true] at h ⊢
            cases hr : rounds net drv k f0 st1 with
            | none => simp [hr] at h
            | some r =>
              obtain ⟨f2, st2, evs2⟩ := r
              simp only [hr, Option.some.injEq, Prod.mk.injEq] at h
              obtain ⟨h1, h2, h3⟩ := h
              subst h1 h2 h3
              rw [ih f0 st1 f2 st2 evs2 hr]
              cases sessionLoop net drv f2 st2 with
              | none => rfl
              | some r => simp
          · simp [hlen] at h

/-- C5: when a `recv` of a session returns 0, after any number `k` of served
rounds, that pass through the loop body makes no driver call and no `send`;
the loop is left; the client socket is shut down and the cleanup block runs,
starting with its GetCapability call.  The calls of the connection are those of
the served rounds, the `recv`, the shutdown and those of the cleanup block. -/
theorem zero_read_closes_session {σ δ : Type} (net : Net σ) (drv : TpmDriver δ)
    (k f0 : Nat) (st0 : St σ δ) (fuel : Nat) (st : St σ δ) (pre : List Event)
    (hrounds : rounds net drv k f0 st0 = some (fuel + 1, st, pre))
    (h : (net.recv st.sock 4096).2 = RecvResult.data []) :
    sessionBody net drv fuel st =
      some (Flow.test, 0, { st with sock := (net.recv st.sock 4096).1 }, [Event.recv 0])
    ∧ sessionLoop net drv f0 st0 =
      some ({ st with sock := (net.recv st.sock 4096).1 }, pre ++ [Event.recv 0])
    ∧ serve net drv f0 st0 =
      some ((cleanup drv { st with sock := (net.recv st.sock 4096).1 }).1,
        pre ++ Event.recv 0 :: Event.shutdownClient ::
          (cleanup drv { st with sock := (net.recv st.sock 4096).1 }).2)
    ∧ (cleanup drv { st with sock := (net.recv st.sock 4096).1 }).2.head?
        = some (Event.process cmdGetCap) := by
  have hl : sessionLoop net drv f0 st0 =
      some ({ st with sock := (net.recv st.sock 4096).1 }, pre ++ [Event.recv 0]) := by
    rw [rounds_sessionLoop net drv k f0 st0 (fuel + 1) st pre hrounds,
      sessionLoop_zero net drv fuel st h]
    rfl
  refine ⟨sessionBody_zero net drv fuel st h, hl, ?_, cleanup_head drv _⟩
  rw [serve_eq, hl]
  simp

/-- C6: when a `recv` of a session fails, after any number `k` of served
rounds, that pass through the loop body makes no driver call and no `send`;
the loop is left by `break`; the client socket is shut down, the cleanup block
runs, and the accept loop goes on with its next pass. -/
theorem recv_error_closes_session {σ δ : Type} (net : Net σ) (drv : TpmDriver δ)
    (k f0 n : Nat) (st0 : St σ δ) (fuel : Nat) (st : St σ δ) (pre : List Event)
    (hacc : (net.accept st0.sock).2 = true)
    (hrounds : rounds net drv k f0 { st0 with sock := (net.accept st0.sock).1 }
      = some (fuel + 1, st, pre))
    (h : (net.recv st.sock 4096).2 = RecvResult.error) :
    sessionBody net drv fuel st =
      some (Flow.brk, -1, { st with sock := (net.recv st.sock 4096).1 }, [Event.recv (-1)])
    ∧ sessionLoop net drv f0 { st0 with sock := (net.accept st0.sock).1 } =
      some ({ st with sock := (net.recv st.sock 4096).1 }, pre ++ [Event.recv (-1)])
    ∧ serve net drv f0 { st0 with sock := (net.accept st0.sock).1 } =
      some ((cleanup drv { st with sock := (net.recv st.sock 4096).1 }).1,
        pre ++ Event.recv (-1) :: Event.shutdownClient ::
          (cleanup drv { st with sock := (net.recv st.sock 4096).1 }).2)
    ∧ (cleanup drv { st with sock := (net.recv st.sock 4096).1 }).2.head?
        = some (Event.process cmdGetCap)
    ∧ acceptLoop net drv f0 (n + 1) st0 =
      (acceptLoop net drv f0 n
          (cleanup drv { st with sock := (net.recv st.sock 4096).1 }).1).map
        (fun r => (Event.accept true :: ((pre ++ Event.recv (-1) :: Event.shutdownClient ::
          (cleanup drv { st with sock := (net.recv st.sock 4096).1 }).2) ++ r.1), r.2)) := by
  have hl : sessionLoop net drv f0 { st0 with sock := (net.accept st0.sock).1 } =
      some ({ st with sock := (net.recv st.sock 4096).1 }, pre ++ [Event.recv (-1)]) := by
    rw [rounds_sessionLoop net drv k f0 _ (fuel + 1) st pre hrounds,
      sessionLoop_error net drv fuel st h]
    rfl
  have hs : serve net drv f0 { st0 with sock := (net.accept st0.sock).1 } =
      some ((cleanup drv { st with sock := (net.recv st.sock 4096).1 }).1,
        pre ++ Event.recv (-1) :: Event.shutdownClient ::
          (cleanup drv { st with sock := (net.recv st.sock 4096).1 }).2) := by
    rw [serve_eq, hl]
    simp
  refine ⟨sessionBody_error net drv fuel st h, hl, hs, cleanup_head drv _, ?_⟩
  have hne : ¬ ((net.accept st0.sock).2 = false) := by simp [hacc]
  simp only [acceptLoop, hne, if_false, hs]
  cases acceptLoop net drv f0 n _ with
  | none => rfl
  | some r => rfl

/-- Witness for `zero_read_closes_session`: on `stServedZero` one request is
served, the second `recv` returns 0, and the connection ends with the shutdown
of the client socket and the GetCapability call of the cleanup block. -/
theorem zero_read_closes_session_witness :
    (scriptNet.recv { accepts := [true], recvs := [RecvResult.data []], sends := [] } 4096).2
        = RecvResult.data []
    ∧ (rounds scriptNet scriptDrv 1 8 stServedZero).map (fun r => (r.1, r.2.2))
        = some (6 + 1, [Event.recv 10, Event.process reqA, Event.send 0 24 24])
    ∧ (sessionLoop scriptNet scriptDrv 8 stServedZero).map (fun r => r.2)
        = some ([Event.recv 10, Event.process reqA, Event.send 0 24 24] ++ [Event.recv 0])
    ∧ (serve scriptNet scriptDrv 8 stServedZero).map (fun r => r.2)
        = some [Event.recv 10, Event.process reqA, Event.send 0 24 24, Event.recv 0,
            Event.shutdownClient, Event.process cmdGetCap] :=
  have h := zero_read_closes_session scriptNet scriptDrv 1 8 stServedZero 6
    { sock := { accepts := [true], recvs := [RecvResult.data []], sends := [] }
      drv := []
      buffer := frameBufA
      handles := zeroMem }
    [Event.recv 10, Event.process reqA, Event.send 0 24 24] rfl (by decide)
  ⟨by decide, by decide, by rw [h.2.1]; rfl, by decide⟩

/-- Witness for `recv_error_closes_session`: on `stServedError` the first
connection serves one request, ends on the failed second `recv`, is shut down
and cleaned up, and a second connection is accepted and served. -/
theorem recv_error_closes_session_witness :
    (scriptNet.accept stServedError.sock).2 = true
    ∧ (rounds scriptNet scriptDrv 1 8
        { stServedError with sock := (scriptNet.accept stServedError.sock).1 }).map
          (fun r => (r.1, r.2.2))
        = some (6 + 1, [Event.recv 10, Event.process reqA, Event.send 0 24 24])
    ∧ (sessionLoop scriptNet scriptDrv 8
        { stServedError with sock := (scriptNet.accept stServedError.sock).1 }).map
          (fun r => r.2)
        = some ([Event.recv 10, Event.process reqA, Event.send 0 24 24] ++ [Event.recv (-1)])
    ∧ acceptLoop scriptNet scriptDrv 8 2 stServedError
        = some ([Event.accept true, Event.recv 10, Event.process reqA, Event.send 0 24 24,
            Event.recv (-1), Event.shutdownClient, Event.process cmdGetCap,
            Event.accept true, Event.recv 0, Event.shutdownClient, Event.process cmdGetCap],
          Outcome.accepting) :=
  have h := recv_error_closes_session scriptNet scriptDrv 1 8 1 stServedError 6
    { sock := { accepts := [true],
                recvs := [RecvResult.error, RecvResult.data []], sends := [] }
      drv := []
      buffer := frameBufA
      handles := zeroMem }
    [Event.recv 10, Event.process reqA, Event.send 0 24 24] (by decide) rfl (by decide)
  ⟨by decide, by decide, by rw [h.2.1]; rfl, by decide⟩

/-- C4 as amended: when a `recv` of a session returns 0, after any number `k`
of served rounds, the connection ends.  The calls made for the connection
after the served rounds start with that `recv` followed by the shutdown of the
client socket; none of them is a `send`, and none after the `recv` is another
`recv`. -/
theorem zero_read_ends_connection {σ δ : Type} (net : Net σ) (drv : TpmDriver δ)
    (k f0 : Nat) (st0 : St σ δ) (fuel : Nat) (st : St σ δ) (pre : List Event)
    (hrounds : rounds net drv k f0 st0 = some (fuel + 1, st, pre))
    (h : (net.recv st.sock 4096).2 = RecvResult.data []) :
    ∃ st1 rest, serve net drv f0 st0 = some (st1, pre ++ rest)
      ∧ rest.take 2 = [Event.recv 0, Event.shutdownClient]
      ∧ (∀ e ∈ rest, ∀ offset size count, e ≠ Event.send offset size count)
      ∧ (∀ e ∈ rest.tail, ∀ len, e ≠ Event.recv len) := by
  have hs : serve net drv f0 st0 =
      some ((cleanup drv { st with sock := (net.recv st.sock 4096).1 }).1,
        pre ++ Event.recv 0 :: Event.shutdownClient ::
          (cleanup drv { st with sock := (net.recv st.sock 4096).1 }).2) := by
    rw [serve_eq, rounds_sessionLoop net drv k f0 st0 (fuel + 1) st pre hrounds,
      sessionLoop_zero net drv fuel st h]
    simp
  have hp := cleanup_all_process drv { st with sock := (net.recv st.sock 4096).1 }
  refine ⟨_, _, hs, rfl, ?_, ?_⟩
  · intro e he offset size count heq
    subst heq
    rcases List.mem_cons.mp he with h1 | h1
    · exact Event.noConfusion h1
    · rcases List.mem_cons.mp h1 with h2 | h2
      · exact Event.noConfusion h2
      · obtain ⟨m, hm⟩ := hp _ h2
        exact Event.noConfusion hm
  · intro e he len heq
    subst heq
    rcases List.mem_cons.mp he with h2 | h2
    · exact Event.noConfusion h2
    · obtain ⟨m, hm⟩ := hp _ h2
      exact Event.noConfusion hm

/-- Witness for `zero_read_ends_connection`, on `stServedZero`: one request is
served, then `recv` returns 0. -/
theorem zero_read_ends_connection_witness :
    (scriptNet.recv { accepts := [true], recvs := [RecvResult.data []], sends := [] } 4096).2
        = RecvResult.data []
    ∧ (rounds scriptNet scriptDrv 1 8 stServedZero).map (fun r => (r.1, r.2.2))
        = some (6 + 1, [Event.recv 10, Event.process reqA, Event.send 0 24 24])
    ∧ ∃ st1 rest, serve scriptNet scriptDrv 8 stServedZero
          = some (st1, [Event.recv 10, Event.process reqA, Event.send 0 24 24] ++ rest)
      ∧ rest.take 2 = [Event.recv 0, Event.shutdownClient]
      ∧ (∀ e ∈ rest, ∀ offset size count, e ≠ Event.send offset size count)
      ∧ (∀ e ∈ rest.tail, ∀ len, e ≠ Event.recv len) :=
  ⟨by decide, by decide,
   zero_read_ends_connection scriptNet scriptDrv 1 8 stServedZero 6
    { sock := { accepts := [true], recvs := [RecvResult.data []], sends := [] }
      drv := []
      buffer := frameBufA
      handles := zeroMem }
    [Event.recv 10, Event.process reqA, Event.send 0 24 24] rfl (by decide)⟩

/-- C4 as stated fails on `stZero`: `recv` returns 0, and the next call is the
shutdown of the client socket, not another `recv`; the request that a second
`recv` would have delivered is only read after a new `accept`. -/
theorem zero_read_continues_counterexample :
    (scriptNet.recv stZero.sock 4096).2 = RecvResult.data []
    ∧ (serve scriptNet scriptDrv 8 stZero).map (fun r => r.2)
        = some [Event.recv 0, Event.shutdownClient, Event.process cmdGetCap]
    ∧ (¬ ∃ len rest, (serve scriptNet scriptDrv 8 stZero).map (fun r => r.2)
        = some (Event.recv 0 :: Event.recv len :: rest))
    ∧ (acceptLoop scriptNet scriptDrv 8 1 { stZero with sock := { stZero.sock with
          accepts := [true] } }).map (fun r => r.1)
        = some [Event.accept true, Event.recv 0, Event.shutdownClient,
            Event.process cmdGetCap] := by
  have h : (serve scriptNet scriptDrv 8 stZero).map (fun r => r.2)
      = some [Event.recv 0, Event.shutdownClient, Event.process cmdGetCap] := by decide
  refine ⟨by decide, h, ?_, by decide⟩
  rintro ⟨len, rest, hc⟩
  rw [h] at hc
  simp at hc

/-- C8, evaluated on `stSendError`: the first `send` of the 24-byte frame
returns `SOCKET_ERROR`; the handler then calls `send` again, at offset -1 with
25 bytes, and after that goes back to `recv` on the same connection.  The
session ends only because that `recv` returns 0. -/
theorem send_error_does_not_end_session :
    (sessionLoop scriptNet scriptDrv 8 stSendError).map (fun r => r.2)
      = some [Event.recv 10, Event.process reqA, Event.send 0 24 (-1),
          Event.send (-1) 25 25, Event.recv 0]
    ∧ (serve scriptNet scriptDrv 8 stSendError).map (fun r => r.2)
      = some [Event.recv 10, Event.process reqA, Event.send 0 24 (-1),
          Event.send (-1) 25 25, Event.recv 0, Event.shutdownClient,
          Event.process cmdGetCap] := by
  refine ⟨by decide, by decide⟩

/-- C10: when the frame for a response of `L ≤ 4096` bytes has been written in
full (the send loop has finished), the body is left at the loop test with
`len = L + 4`, which is positive, so the session loop goes round again: the
calls of the session are those of this round followed by those of the session
loop run from the `recv` of the next round. -/
theorem full_write_returns_to_reading {σ δ : Type} (net : Net σ) (drv : TpmDriver δ)
    (fuel : Nat) (st : St σ δ) (req : List Byte) (L : Nat)
    (s2 : σ) (w : Int) (evs : List Event)
    (hrecv : (net.recv st.sock 4096).2 = RecvResult.data req)
    (hreq : 1 ≤ req.length ∧ req.length ≤ 4096)
    (hL : (drv.drv_process st.drv (shift (writeBytes st.buffer 4 req) 4) req.length).2.2 = L)
    (hL4096 : L ≤ 4096)
    (hsent : sendLoop net (respond drv st.drv (writeBytes st.buffer 4 req) req.length).2.1
      ((L : Int) + 4) fuel (net.recv st.sock 4096).1 0 = some (s2, w, evs)) :
    sessionBody net drv fuel st =
      some (Flow.test, (L : Int) + 4,
        { st with
          sock := s2
          drv := (respond drv st.drv (writeBytes st.buffer 4 req) req.length).1
          buffer := (respond drv st.drv (writeBytes st.buffer 4 req) req.length).2.1 },
        Event.recv req.length :: Event.process req :: evs)
    ∧ (L : Int) + 4 > 0
    ∧ sessionLoop net drv (fuel + 1) st =
      (sessionLoop net drv fuel
        { st with
          sock := s2
          drv := (respond drv st.drv (writeBytes st.buffer 4 req) req.length).1
          buffer := (respond drv st.drv (writeBytes st.buffer 4 req) req.length).2.1 }).map
        (fun r => (r.1, (Event.recv req.length :: Event.process req :: evs) ++ r.2)) := by
  have hb : sessionBody net drv fuel st =
      some (Flow.test, (L : Int) + 4,
        { st with
          sock := s2
          drv := (respond drv st.drv (writeBytes st.buffer 4 req) req.length).1
          buffer := (respond drv st.drv (writeBytes st.buffer 4 req) req.length).2.1 },
        Event.recv req.length :: Event.process req :: evs) := by
    rw [sessionBody_data net drv fuel st req L hrecv hreq hL hL4096, hsent]
    rfl
  have hpos : (L : Int) + 4 > 0 := by omega
  refine ⟨hb, hpos, ?_⟩
  simp only [sessionLoop, hb, hpos, if_true]
  cases sessionLoop net drv fuel _ with
  | none => rfl
  | some r => rfl

/-- Witness for `full_write_returns_to_reading`, on `stTwo`: after the 24-byte
frame (L = 20) and again after the 4-byte frame (L = 0) the next call is a
`recv` on the same connection. -/
theorem full_write_returns_to_reading_witness :
    (scriptNet.recv stTwo.sock 4096).2 = RecvResult.data reqA
    ∧ (scriptDrv.drv_process stTwo.drv (shift (writeBytes stTwo.buffer 4 reqA) 4)
        reqA.length).2.2 = 20
    ∧ sendLoop scriptNet (respond scriptDrv stTwo.drv (writeBytes stTwo.buffer 4 reqA)
        reqA.length).2.1 (((20 : Nat) : Int) + 4) 7 (scriptNet.recv stTwo.sock 4096).1 0
        = some ({ accepts := [], recvs := [RecvResult.data reqA], sends := [] }, 24,
            [Event.send 0 24 24])
    ∧ ((sessionBody scriptNet scriptDrv 7 stTwo).map (fun r => (r.1, r.2.1, r.2.2.2))
        = some (Flow.test, 24, [Event.recv 10, Event.process reqA, Event.send 0 24 24]))
    ∧ (sessionLoop scriptNet scriptDrv (7 + 1) stTwo).map (fun r => r.2)
        = some [Event.recv 10, Event.process reqA, Event.send 0 24 24,
            Event.recv 10, Event.process reqA, Event.send 0 4 4,
            Event.recv (-1)] :=
  have h := full_write_returns_to_reading scriptNet scriptDrv 7 stTwo reqA 20
    { accepts := [], recvs := [RecvResult.data reqA], sends := [] } 24 [Event.send 0 24 24]
    (by decide) (by decide) (by decide) (by decide) (by decide)
  ⟨by decide, by decide, by decide, by rw [h.1]; rfl, by decide⟩

end Ntpm
